import Mathlib

/-!
# NeuroTask: the format-dispatching text extraction of `src/App.js`

A shallow embedding of `readAsText`, `extractWordText`, `extractHtmlText` and
`FileConverter.extractText`.

* A promise is modelled by the value it settles with (`Outcome`).
* What the browser and the libraries do (`FileReader`, `mammoth`, the DOM,
  `String.prototype.toLowerCase`, and `extractPdfText`, which is imported from
  `./components/PdfExtractor`) is not in `App.js`; it is a parameter (`Env`).
  The theorems hold for every such environment.
* External operations thread an uninterpreted world state `σ`, so that nothing
  is assumed about them being repeatable; each run also records, in order, the
  functions it invoked (`Call`).
-/

namespace NeuroTask

/-! ## Data model -/

/-- A value a promise is rejected with. -/
inductive Thrown where
  /-- An `Error` object, `new Error(message)`. -/
  | error (message : String)
  /-- The event handed to `reader.onerror`. -/
  | event (detail : String)
deriving DecidableEq

/-- How a promise settles. -/
inductive Outcome (α : Type) where
  | resolved (value : α)
  | rejected (reason : Thrown)
deriving DecidableEq

/-- The `File` handle: declared media type, name and byte payload. -/
structure File where
  type : String
  name : String
  payload : List Nat
deriving DecidableEq

/-- The functions whose invocation a run records. -/
inductive Call where
  | readAsText
  | extractPdfText
  | extractWordText
  | extractHtmlText
  | readAsArrayBuffer
  | mammothExtractRawText
deriving DecidableEq

/-- What lies outside `App.js`. `fileReaderText` and `fileReaderArrayBuffer`
are a `FileReader` load that ends in `onload` (resolved) or `onerror`
(rejected); `textContent` and `innerText` are the two accessors of a fresh
`div` whose `innerHTML` was set to the argument. -/
structure Env (σ : Type) where
  toLowerCase : String → String
  fileReaderText : File → σ → Outcome String × σ
  fileReaderArrayBuffer : File → σ → Outcome (List Nat) × σ
  mammothExtractRawText : List Nat → σ → Outcome String × σ
  extractPdfText : File → σ → Outcome String × σ
  textContent : String → String
  innerText : String → String

/-- One run of an asynchronous function: how it settled, what it invoked (in
order), and the world it left. -/
structure Run (σ α : Type) where
  outcome : Outcome α
  calls : List Call
  world : σ
deriving DecidableEq

/-- The same run, with the resolved value mapped. -/
def Run.map {σ α β : Type} (g : α → β) (r : Run σ α) : Run σ β :=
  { outcome :=
      match r.outcome with
      | .resolved v => .resolved (g v)
      | .rejected e => .rejected e
    calls := r.calls
    world := r.world }

/-! ## JavaScript primitives -/

/-- `s.endsWith(suffix)`. -/
def endsWith (s suffix : String) : Bool :=
  suffix.data.isSuffixOf s.data

/-- `a || b` on strings: `a` when it is truthy (non-empty), else `b`. -/
def jsOr (a b : String) : String :=
  if a = "" then b else a

/-! ## The functions of `App.js` -/

/-- `readAsText` (lines 20-27). -/
def readAsText {σ : Type} (env : Env σ) (file : File) (w : σ) : Run σ String :=
  { outcome := (env.fileReaderText file w).1
    calls := [Call.readAsText]
    world := (env.fileReaderText file w).2 }

/-- `extractWordText` (lines 30-45). -/
def extractWordText {σ : Type} (env : Env σ) (file : File) (w : σ) : Run σ String :=
  match env.fileReaderArrayBuffer file w with
  | (.rejected error, w1) =>
      { outcome := .rejected error
        calls := [Call.extractWordText, Call.readAsArrayBuffer]
        world := w1 }
  | (.resolved arrayBuffer, w1) =>
      { outcome := (env.mammothExtractRawText arrayBuffer w1).1
        calls := [Call.extractWordText, Call.readAsArrayBuffer, Call.mammothExtractRawText]
        world := (env.mammothExtractRawText arrayBuffer w1).2 }

/-- The last three lines of `extractHtmlText` (lines 50-52), on the loaded
markup. -/
def stripHtml {σ : Type} (env : Env σ) (html : String) : String :=
  jsOr (jsOr (env.textContent html) (env.innerText html)) ""

/-- `extractHtmlText` (lines 48-53). -/
def extractHtmlText {σ : Type} (env : Env σ) (file : File) (w : σ) : Run σ String :=
  let loaded := readAsText env file w
  { outcome :=
      match loaded.outcome with
      | .resolved html => .resolved (stripHtml env html)
      | .rejected e => .rejected e
    calls := Call.extractHtmlText :: loaded.calls
    world := loaded.world }

/-- The call `extractPdfText(file)`; the function itself is imported. -/
def extractPdfText {σ : Type} (env : Env σ) (file : File) (w : σ) : Run σ String :=
  { outcome := (env.extractPdfText file w).1
    calls := [Call.extractPdfText]
    world := (env.extractPdfText file w).2 }

/-- The failure of the last branch: `new Error("Unsupported file type: " + fileType)`. -/
def unsupported (fileType : String) : Thrown :=
  Thrown.error ("Unsupported file type: " ++ fileType)

/-- `FileConverter.extractText` (lines 58-123). `none` is a falsy handle, and
the resolved value `none` is `null`. -/
def extractText {σ : Type} (env : Env σ) (file : Option File) (w : σ) :
    Run σ (Option String) :=
  match file with
  | none => { outcome := .resolved none, calls := [], world := w }
  | some file =>
    let fileType := file.type
    let fileName := env.toLowerCase file.name
    if fileType = "text/plain" then
      (readAsText env file w).map some
    else if fileType = "application/pdf" ∨ endsWith fileName ".pdf" then
      (extractPdfText env file w).map some
    else if fileType = "application/vnd.openxmlformats-officedocument.wordprocessingml.document"
        ∨ fileType = "application/msword"
        ∨ endsWith fileName ".docx"
        ∨ endsWith fileName ".doc" then
      (extractWordText env file w).map some
    else if fileType = "application/rtf" ∨ endsWith fileName ".rtf" then
      (readAsText env file w).map some
    else if fileType = "text/html"
        ∨ endsWith fileName ".html"
        ∨ endsWith fileName ".htm" then
      (extractHtmlText env file w).map some
    else if fileType = "text/csv" ∨ endsWith fileName ".csv" then
      (readAsText env file w).map some
    else if fileType = "application/json" ∨ endsWith fileName ".json" then
      (readAsText env file w).map some
    else if fileType = "text/markdown" ∨ endsWith fileName ".md" then
      (readAsText env file w).map some
    else if fileType = "application/xml" ∨ endsWith fileName ".xml" then
      (readAsText env file w).map some
    else
      { outcome := .rejected (unsupported fileType), calls := [], world := w }

/-! ## Format classes and strategies -/

/-- The closed enumeration of format classes; one per branch of the chain in
`extractText`, named as the comments of the branches name them. -/
inductive Format where
  | plainText
  | pdf
  | wordDocument
  | richText
  | html
  | csv
  | json
  | markdown
  | xml
  | unsupported
deriving DecidableEq

/-- What `extractText` does with a handle. -/
inductive Strategy where
  | passthrough
  | pdfDecoder
  | wordDecoder
  | markupStripper
  | unsupportedFailure
deriving DecidableEq

/-- The strategy of each format class: the function the branch calls. -/
def Format.strategy : Format → Strategy
  | .plainText => .passthrough
  | .pdf => .pdfDecoder
  | .wordDocument => .wordDecoder
  | .richText => .passthrough
  | .html => .markupStripper
  | .csv => .passthrough
  | .json => .passthrough
  | .markdown => .passthrough
  | .xml => .passthrough
  | .unsupported => .unsupportedFailure

/-- The branch of the chain of `extractText` (lines 64-122) that a declared
type and a lower-cased name reach: the guards of the source, in its order. -/
def formatOf (fileType fileName : String) : Format :=
  if fileType = "text/plain" then .plainText
  else if fileType = "application/pdf" ∨ endsWith fileName ".pdf" then .pdf
  else if fileType = "application/vnd.openxmlformats-officedocument.wordprocessingml.document"
      ∨ fileType = "application/msword"
      ∨ endsWith fileName ".docx"
      ∨ endsWith fileName ".doc" then .wordDocument
  else if fileType = "application/rtf" ∨ endsWith fileName ".rtf" then .richText
  else if fileType = "text/html"
      ∨ endsWith fileName ".html"
      ∨ endsWith fileName ".htm" then .html
  else if fileType = "text/csv" ∨ endsWith fileName ".csv" then .csv
  else if fileType = "application/json" ∨ endsWith fileName ".json" then .json
  else if fileType = "text/markdown" ∨ endsWith fileName ".md" then .markdown
  else if fileType = "application/xml" ∨ endsWith fileName ".xml" then .xml
  else .unsupported

/-- What each branch of `extractText` runs. -/
def dispatch {σ : Type} (env : Env σ) (format : Format) (file : File) (w : σ) :
    Run σ (Option String) :=
  match format.strategy with
  | .passthrough => (readAsText env file w).map some
  | .pdfDecoder => (extractPdfText env file w).map some
  | .wordDecoder => (extractWordText env file w).map some
  | .markupStripper => (extractHtmlText env file w).map some
  | .unsupportedFailure => { outcome := .rejected (unsupported file.type), calls := [], world := w }

/-- The strategy a run shows: the function it invoked first, and the
unsupported failure when it was rejected without invoking anything. A run that
resolved without invoking anything (the absent handle) shows none. -/
def selected {σ α : Type} (r : Run σ α) : Option Strategy :=
  match r.calls with
  | Call.readAsText :: _ => some .passthrough
  | Call.extractPdfText :: _ => some .pdfDecoder
  | Call.extractWordText :: _ => some .wordDecoder
  | Call.extractHtmlText :: _ => some .markupStripper
  | _ :: _ => none
  | [] =>
    match r.outcome with
    | .rejected _ => some .unsupportedFailure
    | .resolved _ => none

/-! ## The classification table of the specification -/

/-- The ten media types of the classification table, each with its format. -/
def mediaTypeTable : List (String × Format) :=
  [ ("text/plain", .plainText),
    ("application/pdf", .pdf),
    ("application/vnd.openxmlformats-officedocument.wordprocessingml.document", .wordDocument),
    ("application/msword", .wordDocument),
    ("application/rtf", .richText),
    ("text/html", .html),
    ("text/csv", .csv),
    ("application/json", .json),
    ("text/markdown", .markdown),
    ("application/xml", .xml) ]

/-- The media types of the table. -/
def tableMediaTypes : List String :=
  mediaTypeTable.map Prod.fst

/-- The suffixes the dispatcher tests (the suffix table of the classification
algorithm). -/
def testedSuffixes : List String :=
  [".pdf", ".docx", ".doc", ".rtf", ".html", ".htm", ".csv", ".json", ".md", ".xml"]

/-- The suffixes of the supported classification table, which lists `.txt`
next to `text/plain`. -/
def tableSuffixes : List String :=
  ".txt" :: testedSuffixes

/-- The format the table assigns to a declared media type. -/
def tableFormat (fileType : String) : Option Format :=
  (mediaTypeTable.find? (fun row => row.1 == fileType)).map Prod.snd

/-- The suffixes that take a handle of the given table format away from the
strategy of its declared type: the suffixes tested, together with a media type,
by an earlier guard of the chain whose branch calls a different function. -/
def Format.overridingSuffixes : Format → List String
  | .plainText => []
  | .pdf => []
  | .wordDocument => [".pdf"]
  | .richText => [".pdf", ".docx", ".doc"]
  | .html => [".pdf", ".docx", ".doc", ".rtf"]
  | .csv => [".pdf", ".docx", ".doc", ".html", ".htm"]
  | .json => [".pdf", ".docx", ".doc", ".html", ".htm"]
  | .markdown => [".pdf", ".docx", ".doc", ".html", ".htm"]
  | .xml => [".pdf", ".docx", ".doc", ".html", ".htm"]
  | .unsupported => []

/-- The format classes whose strategy is the passthrough. -/
def passthroughFormats : List Format :=
  [.plainText, .richText, .csv, .json, .markdown, .xml]

/-- One format of the fixed order, with the media types and the suffixes that
select it. -/
structure FormatRow where
  format : Format
  mediaTypes : List String
  suffixes : List String

/-- The fixed order in which the formats after `text/plain` are tried. -/
def formatOrder : List FormatRow :=
  [ { format := .pdf, mediaTypes := ["application/pdf"], suffixes := [".pdf"] },
    { format := .wordDocument,
      mediaTypes :=
        ["application/vnd.openxmlformats-officedocument.wordprocessingml.document",
         "application/msword"],
      suffixes := [".docx", ".doc"] },
    { format := .richText, mediaTypes := ["application/rtf"], suffixes := [".rtf"] },
    { format := .html, mediaTypes := ["text/html"], suffixes := [".html", ".htm"] },
    { format := .csv, mediaTypes := ["text/csv"], suffixes := [".csv"] },
    { format := .json, mediaTypes := ["application/json"], suffixes := [".json"] },
    { format := .markdown, mediaTypes := ["text/markdown"], suffixes := [".md"] },
    { format := .xml, mediaTypes := ["application/xml"], suffixes := [".xml"] } ]

/-- A format is a candidate when its media type equals the declared type or one
of its suffixes ends the lower-cased name. -/
def FormatRow.accepts (row : FormatRow) (fileType fileName : String) : Bool :=
  row.mediaTypes.contains fileType || row.suffixes.any (fun s => endsWith fileName s)

/-- Conflict resolution by the fixed order: `text/plain` wins over everything;
otherwise the first candidate of `formatOrder`; unsupported when there is none. -/
def firstMatch (fileType fileName : String) : Format :=
  if fileType = "text/plain" then .plainText
  else
    match formatOrder.find? (fun row => row.accepts fileType fileName) with
    | some row => row.format
    | none => .unsupported

/-- The external operations settle the same way whenever they are given the
same handle (or buffer), whatever the world: the handle is immutable and the
loaders and decoders are functions of it. -/
def Env.Repeatable {σ : Type} (env : Env σ) : Prop :=
  (∀ file w v, (env.fileReaderText file w).1 = (env.fileReaderText file v).1)
  ∧ (∀ file w v, (env.fileReaderArrayBuffer file w).1 = (env.fileReaderArrayBuffer file v).1)
  ∧ (∀ buffer w v, (env.mammothExtractRawText buffer w).1 = (env.mammothExtractRawText buffer v).1)
  ∧ (∀ file w v, (env.extractPdfText file w).1 = (env.extractPdfText file v).1)

/-! ## A concrete environment -/

/-- Bytes read as text, one character per byte. -/
def decodeBytes (bytes : List Nat) : String :=
  String.mk (bytes.map Char.ofNat)

/-- A small environment on which the definitions can be evaluated. The world
counts the loads made so far. Lower-casing is that of the ASCII letters; the
Word decoder accepts a payload that starts with the package signature `PK`,
the Pdf decoder one that starts with `%PDF`; the DOM recovers no text. -/
def sampleEnv : Env Nat where
  toLowerCase := fun s => String.mk (s.data.map Char.toLower)
  fileReaderText := fun file w => (.resolved (decodeBytes file.payload), w + 1)
  fileReaderArrayBuffer := fun file w => (.resolved file.payload, w + 1)
  mammothExtractRawText := fun buffer w =>
    if [80, 75].isPrefixOf buffer then (.resolved (decodeBytes (buffer.drop 2)), w)
    else (.rejected (Thrown.error "corrupted package"), w)
  extractPdfText := fun file w =>
    if [37, 80, 68, 70].isPrefixOf file.payload then
      (.resolved (decodeBytes (file.payload.drop 4)), w + 1)
    else (.rejected (Thrown.error "Invalid PDF structure"), w + 1)
  textContent := fun _ => ""
  innerText := fun _ => ""

/-- The sample environment, except that the file can be read as text only
once: the first load (world `0`) ends in `onload`, every later load ends in
`onerror`, as when the file is removed or changed on disk between two loads. -/
def changingEnv : Env Nat :=
  { sampleEnv with
    fileReaderText := fun file w =>
      if w = 0 then (.resolved (decodeBytes file.payload), 1)
      else (.rejected (Thrown.event "NotReadableError"), w + 1) }

/-! ## Theorems -/

/-! ### The chain, seen as classification followed by dispatch -/


/-- Dispatching commutes with a conditional on the format. -/
theorem dispatch_ite {σ : Type} (env : Env σ) (c : Prop) [Decidable c] (a b : Format)
    (file : File) (w : σ) :
    dispatch env (if c then a else b) file w
      = if c then dispatch env a file w else dispatch env b file w := by
  split <;> rfl

/-- The chain of `extractText` is the classification `formatOf` followed by the call of
the branch. -/
theorem extractText_eq_dispatch {σ : Type} (env : Env σ) (file : File) (w : σ) :
    extractText env (some file) w
      = dispatch env (formatOf file.type (env.toLowerCase file.name)) file w := by
  unfold formatOf
  simp only [dispatch_ite]
  rfl

/-- Every branch shows the strategy of its format. -/
theorem selected_dispatch {σ : Type} (env : Env σ) (format : Format) (file : File) (w : σ) :
    selected (dispatch env format file w) = some format.strategy := by
  cases format <;>
    simp [dispatch, Format.strategy, selected, Run.map, readAsText, extractPdfText,
      extractHtmlText]
  simp only [extractWordText]
  rcases env.fileReaderArrayBuffer file w with ⟨r | e, w1⟩ <;> rfl

/-- The strategy `extractText` shows is that of the branch its guards reach. -/
theorem selected_extractText {σ : Type} (env : Env σ) (file : File) (w : σ) :
    selected (extractText env (some file) w)
      = some (formatOf file.type (env.toLowerCase file.name)).strategy := by
  rw [extractText_eq_dispatch, selected_dispatch]

/-- The last branch is reached exactly when no media type and no tested suffix matches. -/
theorem formatOf_eq_unsupported_iff (fileType fileName : String) :
    formatOf fileType fileName = Format.unsupported
      ↔ fileType ∉ tableMediaTypes ∧ ∀ s ∈ testedSuffixes, endsWith fileName s = false := by
  simp only [tableMediaTypes, mediaTypeTable, testedSuffixes, List.map, List.mem_cons,
    List.mem_singleton, List.not_mem_nil, or_false, not_or, forall_eq_or_imp, forall_eq,
    formatOf]
  constructor
  · intro h
    split_ifs at h
    simp_all
  · rintro ⟨⟨h1, h2, h3, h4, h5, h6, h7, h8, h9, h10⟩, s1, s2, s3, s4, s5, s6, s7, s8, s9, s10⟩
    simp [h1, h2, h3, h4, h5, h6, h7, h8, h9, h10, s1, s2, s3, s4, s5, s6, s7, s8, s9, s10]

/-- Claim C1: a handle whose declared media type is none of the ten media types of
the table and whose lower-cased name ends with none of the suffixes of the
table is rejected with `Error("Unsupported file type: " + type)`, the detail
being exactly the declared type; nothing is invoked and the world is untouched
(no byte of the payload is read). -/
theorem extractText_unsupported {σ : Type} (env : Env σ) (file : File) (w : σ)
    (htype : file.type ∉ tableMediaTypes)
    (hname : ∀ s ∈ tableSuffixes, endsWith (env.toLowerCase file.name) s = false) :
    extractText env (some file) w
      = { outcome := .rejected (Thrown.error ("Unsupported file type: " ++ file.type)),
          calls := [],
          world := w } := by
  have h : formatOf file.type (env.toLowerCase file.name) = Format.unsupported :=
    (formatOf_eq_unsupported_iff _ _).2
      ⟨htype, fun s hs => hname s (List.mem_cons_of_mem _ hs)⟩
  rw [extractText_eq_dispatch, h]
  rfl

/-- Claim C1 at type `application/octet-stream`, name `file.bin`. -/
theorem extractText_unsupported_witness :
    extractText sampleEnv (some ⟨"application/octet-stream", "file.bin", [0, 159, 146, 150]⟩) 7
      = { outcome := .rejected (Thrown.error "Unsupported file type: application/octet-stream"),
          calls := [],
          world := 7 } :=
  extractText_unsupported sampleEnv ⟨"application/octet-stream", "file.bin", [0, 159, 146, 150]⟩ 7
    (by decide) (by decide)

/-- The ten rows of the media type table. -/
theorem tableFormat_eq_some_iff (fileType : String) (format : Format) :
    tableFormat fileType = some format ↔
      (fileType = "text/plain" ∧ format = .plainText)
      ∨ (fileType = "application/pdf" ∧ format = .pdf)
      ∨ (fileType = "application/vnd.openxmlformats-officedocument.wordprocessingml.document"
          ∧ format = .wordDocument)
      ∨ (fileType = "application/msword" ∧ format = .wordDocument)
      ∨ (fileType = "application/rtf" ∧ format = .richText)
      ∨ (fileType = "text/html" ∧ format = .html)
      ∨ (fileType = "text/csv" ∧ format = .csv)
      ∨ (fileType = "application/json" ∧ format = .json)
      ∨ (fileType = "text/markdown" ∧ format = .markdown)
      ∨ (fileType = "application/xml" ∧ format = .xml) := by
  simp only [tableFormat, mediaTypeTable, List.find?_cons, List.find?_nil, beq_iff_eq]
  by_cases h1 : "text/plain" = fileType
  · subst h1; simp [eq_comm]
  by_cases h2 : "application/pdf" = fileType
  · subst h2; simp [eq_comm]
  by_cases h3 : "application/vnd.openxmlformats-officedocument.wordprocessingml.document" = fileType
  · subst h3; simp [eq_comm]
  by_cases h4 : "application/msword" = fileType
  · subst h4; simp [eq_comm]
  by_cases h5 : "application/rtf" = fileType
  · subst h5; simp [eq_comm]
  by_cases h6 : "text/html" = fileType
  · subst h6; simp [eq_comm]
  by_cases h7 : "text/csv" = fileType
  · subst h7; simp [eq_comm]
  by_cases h8 : "application/json" = fileType
  · subst h8; simp [eq_comm]
  by_cases h9 : "text/markdown" = fileType
  · subst h9; simp [eq_comm]
  by_cases h10 : "application/xml" = fileType
  · subst h10; simp [eq_comm]
  have e1 := Ne.symm h1
  have e2 := Ne.symm h2
  have e3 := Ne.symm h3
  have e4 := Ne.symm h4
  have e5 := Ne.symm h5
  have e6 := Ne.symm h6
  have e7 := Ne.symm h7
  have e8 := Ne.symm h8
  have e9 := Ne.symm h9
  have e10 := Ne.symm h10
  simp [beq_eq_false_iff_ne.2 h1, beq_eq_false_iff_ne.2 h2, beq_eq_false_iff_ne.2 h3,
    beq_eq_false_iff_ne.2 h4, beq_eq_false_iff_ne.2 h5, beq_eq_false_iff_ne.2 h6,
    beq_eq_false_iff_ne.2 h7, beq_eq_false_iff_ne.2 h8, beq_eq_false_iff_ne.2 h9,
    beq_eq_false_iff_ne.2 h10, e1, e2, e3, e4, e5, e6, e7, e8, e9, e10]

/-- The first element found, as a conditional. -/
theorem find?_cons_ite {α : Type} (p : α → Bool) (a : α) (as : List α) :
    (a :: as).find? p = if p a = true then some a else as.find? p := by
  cases h : p a <;> simp [List.find?, h]

/-- The search through the fixed order reaches the same format as the guards of the source. -/
theorem firstMatch_eq_formatOf (fileType fileName : String) :
    firstMatch fileType fileName = formatOf fileType fileName := by
  simp only [firstMatch, formatOf, formatOrder, FormatRow.accepts, find?_cons_ite,
    List.find?_nil, List.contains_cons, List.contains_nil, List.any_cons, List.any_nil,
    Bool.or_false, beq_iff_eq, Bool.or_eq_true, or_assoc]
  by_cases h0 : fileType = "text/plain"
  · simp only [h0, if_true]
  simp only [h0, if_false]
  by_cases h1 : fileType = "application/pdf" ∨ endsWith fileName ".pdf" = true
  · simp only [h1, if_true]
  simp only [h1, if_false]
  by_cases h2 : fileType = "application/vnd.openxmlformats-officedocument.wordprocessingml.document"
      ∨ fileType = "application/msword"
      ∨ endsWith fileName ".docx" = true
      ∨ endsWith fileName ".doc" = true
  · simp only [h2, if_true]
  simp only [h2, if_false]
  by_cases h3 : fileType = "application/rtf" ∨ endsWith fileName ".rtf" = true
  · simp only [h3, if_true]
  simp only [h3, if_false]
  by_cases h4 : fileType = "text/html"
      ∨ endsWith fileName ".html" = true
      ∨ endsWith fileName ".htm" = true
  · simp only [h4, if_true]
  simp only [h4, if_false]
  by_cases h5 : fileType = "text/csv" ∨ endsWith fileName ".csv" = true
  · simp only [h5, if_true]
  simp only [h5, if_false]
  by_cases h6 : fileType = "application/json" ∨ endsWith fileName ".json" = true
  · simp only [h6, if_true]
  simp only [h6, if_false]
  by_cases h7 : fileType = "text/markdown" ∨ endsWith fileName ".md" = true
  · simp only [h7, if_true]
  simp only [h7, if_false]
  by_cases h8 : fileType = "application/xml" ∨ endsWith fileName ".xml" = true
  · simp only [h8, if_true]
  simp only [h8, if_false]

/-- A string that ends with a non-empty suffix ends with the last character of the suffix. -/
theorem endsWith_getLast? (n s : String) (hs : s.data ≠ []) (h : endsWith n s = true) :
    n.data.getLast? = s.data.getLast? := by
  obtain ⟨t, ht⟩ := List.isSuffixOf_iff_suffix.1 h
  rw [← ht, List.getLast?_append_of_ne_nil _ hs]

/-- Two suffixes with different last characters cannot both end the same string. -/
theorem endsWith_disjoint (n a b : String) (ha : a.data ≠ []) (hb : b.data ≠ [])
    (hne : a.data.getLast? ≠ b.data.getLast?) (h : endsWith n a = true) :
    endsWith n b = false := by
  cases hb' : endsWith n b
  · rfl
  · exact absurd ((endsWith_getLast? n a ha h).symm.trans (endsWith_getLast? n b hb hb')) hne

/-- For a declared type of the table, the strategy of the table is selected exactly when no
overriding suffix ends the lower-cased name. -/
theorem selected_iff_no_overriding_suffix {σ : Type} (env : Env σ) (file : File) (w : σ)
    (format : Format) (htable : tableFormat file.type = some format) :
    selected (extractText env (some file) w) = some format.strategy
      ↔ ∀ s ∈ format.overridingSuffixes, endsWith (env.toLowerCase file.name) s = false := by
  rw [selected_extractText]
  generalize env.toLowerCase file.name = n
  have r1 := endsWith_disjoint n ".rtf" ".html" (by decide) (by decide) (by decide)
  have r2 := endsWith_disjoint n ".rtf" ".htm" (by decide) (by decide) (by decide)
  have c1 := endsWith_disjoint n ".csv" ".html" (by decide) (by decide) (by decide)
  have c2 := endsWith_disjoint n ".csv" ".htm" (by decide) (by decide) (by decide)
  have j1 := endsWith_disjoint n ".json" ".html" (by decide) (by decide) (by decide)
  have j2 := endsWith_disjoint n ".json" ".htm" (by decide) (by decide) (by decide)
  have m1 := endsWith_disjoint n ".md" ".html" (by decide) (by decide) (by decide)
  have m2 := endsWith_disjoint n ".md" ".htm" (by decide) (by decide) (by decide)
  rcases (tableFormat_eq_some_iff _ _).1 htable with
    ⟨ht, hf⟩ | ⟨ht, hf⟩ | ⟨ht, hf⟩ | ⟨ht, hf⟩ | ⟨ht, hf⟩ | ⟨ht, hf⟩ | ⟨ht, hf⟩ | ⟨ht, hf⟩
      | ⟨ht, hf⟩ | ⟨ht, hf⟩
  all_goals
    subst hf
    rw [ht]
    simp only [formatOf, Format.overridingSuffixes, List.mem_cons, List.mem_singleton,
      List.not_mem_nil, forall_eq_or_imp, forall_eq, or_false, false_or, true_or,
      String.reduceEq, if_true, if_false, imp_false, false_imp_iff, implies_true]
  all_goals
    clear htable ht
    generalize endsWith n ".pdf" = b1 at *
    generalize endsWith n ".docx" = b2 at *
    generalize endsWith n ".doc" = b3 at *
    generalize endsWith n ".rtf" = b4 at *
    generalize endsWith n ".html" = b5 at *
    generalize endsWith n ".htm" = b6 at *
    generalize endsWith n ".csv" = b7 at *
    generalize endsWith n ".json" = b8 at *
    generalize endsWith n ".md" = b9 at *
    cases b1 <;> try simp_all [Format.strategy]
  all_goals cases b2 <;> try simp_all [Format.strategy]
  all_goals cases b3 <;> try simp_all [Format.strategy]
  all_goals cases b4 <;> try simp_all [Format.strategy]
  all_goals cases b5 <;> try simp_all [Format.strategy]
  all_goals cases b6 <;> try simp_all [Format.strategy]
  all_goals cases b7 <;> try simp_all [Format.strategy]
  all_goals cases b8 <;> try simp_all [Format.strategy]
  all_goals cases b9 <;> simp [Format.strategy]

/-- Claim C2, as amended: for a handle whose declared media type is one of the
media types of the table, the strategy `extractText` selects is the one the
table assigns to that media type if and only if the lower-cased name ends with
none of the suffixes that an earlier guard of the chain tests for a format with
a different strategy (`Format.overridingSuffixes`); for the declared types
`text/plain` and `application/pdf` there is no such suffix, and the strategy of
the table is selected for every name. -/
theorem declared_type_selects_table_strategy {σ : Type} (env : Env σ) (file : File) (w : σ)
    (format : Format) (htable : tableFormat file.type = some format) :
    (selected (extractText env (some file) w) = some format.strategy
        ↔ ∀ s ∈ format.overridingSuffixes, endsWith (env.toLowerCase file.name) s = false)
      ∧ (file.type = "text/plain" ∨ file.type = "application/pdf" →
          selected (extractText env (some file) w) = some format.strategy) := by
  refine ⟨selected_iff_no_overriding_suffix env file w format htable, fun htype => ?_⟩
  refine (selected_iff_no_overriding_suffix env file w format htable).2 ?_
  rcases htype with htype | htype <;>
    · rw [htype] at htable
      obtain rfl : _ = format := Option.some.inj htable
      intro s hs
      cases hs

/-- Claim C2, as amended, where media type and suffix disagree: a handle declared
`text/html` and named `data.JSON` goes to the Markup Stripper, a handle declared
`application/pdf` and named `scan.DOCX` to the Pdf decoder. -/
theorem declared_type_selects_table_strategy_witness :
    selected (extractText sampleEnv (some ⟨"text/html", "data.JSON", [60, 112, 62]⟩) 0)
        = some Strategy.markupStripper
      ∧ selected (extractText sampleEnv (some ⟨"application/pdf", "scan.DOCX", [80, 75]⟩) 0)
        = some Strategy.pdfDecoder :=
  ⟨((declared_type_selects_table_strategy sampleEnv ⟨"text/html", "data.JSON", [60, 112, 62]⟩ 0
      Format.html (by decide)).1).2 (by decide),
   (declared_type_selects_table_strategy sampleEnv ⟨"application/pdf", "scan.DOCX", [80, 75]⟩ 0
      Format.pdf (by decide)).2 (Or.inr rfl)⟩

/-- Claim C2 fails as stated: the table assigns the Markup Stripper to
`text/html`, but a handle declared `text/html` and named `a.pdf` is sent to the
Pdf decoder, because the guard of the Pdf branch tests the suffix before the
guard of the Html branch tests the media type. -/
theorem html_type_with_pdf_suffix_selects_pdf_decoder :
    tableFormat "text/html" = some Format.html
      ∧ Format.html.strategy = Strategy.markupStripper
      ∧ extractText sampleEnv (some ⟨"text/html", "a.pdf", [60, 112, 62]⟩) 0
          = { outcome := .rejected (Thrown.error "Invalid PDF structure"),
              calls := [Call.extractPdfText],
              world := 1 }
      ∧ selected (extractText sampleEnv (some ⟨"text/html", "a.pdf", [60, 112, 62]⟩) 0)
          ≠ (tableFormat "text/html").map Format.strategy := by
  decide

/-- Claim C3 at the failing input: a handle named `notes.txt` with the empty
declared type is rejected as unsupported; `readAsText` is not invoked. -/
theorem txt_suffix_without_type_is_unsupported :
    extractText sampleEnv (some ⟨"", "notes.txt", [104, 105]⟩) 0
      = { outcome := .rejected (Thrown.error "Unsupported file type: "),
          calls := [],
          world := 0 } := by
  decide

/-- The sample environment settles the same way in every world. -/
theorem sampleEnv_repeatable : sampleEnv.Repeatable := by
  refine ⟨fun _ _ _ => rfl, fun _ _ _ => rfl, fun buffer w v => ?_, fun file w v => ?_⟩
  · simp only [sampleEnv]; split <;> rfl
  · simp only [sampleEnv]; split <;> rfl

/-- In a repeatable environment a branch settles the same way, with the same calls, from any
two worlds. -/
theorem dispatch_repeatable {σ : Type} (env : Env σ) (h : env.Repeatable) (format : Format)
    (file : File) (w v : σ) :
    (dispatch env format file v).outcome = (dispatch env format file w).outcome
      ∧ (dispatch env format file v).calls = (dispatch env format file w).calls := by
  obtain ⟨hText, hBuffer, hMammoth, hPdf⟩ := h
  cases format <;>
    simp [dispatch, Format.strategy, Run.map, readAsText, extractPdfText, extractHtmlText,
      hText file v w, hPdf file v w]
  have hb := hBuffer file v w
  simp only [extractWordText]
  rcases hv : env.fileReaderArrayBuffer file v with ⟨bv | ev, v1⟩ <;>
    rcases hw : env.fileReaderArrayBuffer file w with ⟨bw | ew, w1⟩ <;>
    simp [hv, hw] at hb ⊢
  · subst hb
    rw [hMammoth bv v1 w1]
  · exact hb

/-- Claim C4, as amended: the strategy `extractText` selects depends on the
declared media type and the name alone: two handles that agree on both are
given the same strategy, whatever their payloads and whatever the world; a
second run on the same handle, started in the world the first run left, selects
the same strategy; and it settles with the identical result and the same calls
whenever the loaders and decoders settle the same way each time they are given
the same handle (`Env.Repeatable`). -/
theorem strategy_depends_on_type_and_name {σ : Type} (env : Env σ) (f g : File) (w v : σ) :
    (f.type = g.type → f.name = g.name →
        selected (extractText env (some f) w) = selected (extractText env (some g) v))
      ∧ selected (extractText env (some f) (extractText env (some f) w).world)
          = selected (extractText env (some f) w)
      ∧ (env.Repeatable →
          (extractText env (some f) (extractText env (some f) w).world).outcome
              = (extractText env (some f) w).outcome
            ∧ (extractText env (some f) (extractText env (some f) w).world).calls
              = (extractText env (some f) w).calls) := by
  refine ⟨fun htype hname => ?_, ?_, fun h => ?_⟩
  · rw [selected_extractText, selected_extractText, htype, hname]
  · rw [selected_extractText, selected_extractText]
  · rw [extractText_eq_dispatch, extractText_eq_dispatch]
    exact dispatch_repeatable env h _ f w _

/-- Claim C4 at two handles declared `application/pdf` with different payloads. -/
theorem strategy_depends_on_type_and_name_witness :
    selected (extractText sampleEnv (some ⟨"application/pdf", "a.bin", [37, 80, 68, 70, 72, 105]⟩) 0)
        = selected (extractText sampleEnv (some ⟨"application/pdf", "a.bin", [1, 2]⟩) 9)
      ∧ (extractText sampleEnv (some ⟨"application/pdf", "a.bin", [37, 80, 68, 70, 72, 105]⟩)
            (extractText sampleEnv
              (some ⟨"application/pdf", "a.bin", [37, 80, 68, 70, 72, 105]⟩) 0).world).outcome
          = (extractText sampleEnv
              (some ⟨"application/pdf", "a.bin", [37, 80, 68, 70, 72, 105]⟩) 0).outcome :=
  ⟨(strategy_depends_on_type_and_name sampleEnv
      ⟨"application/pdf", "a.bin", [37, 80, 68, 70, 72, 105]⟩
      ⟨"application/pdf", "a.bin", [1, 2]⟩ 0 9).1 rfl rfl,
   ((strategy_depends_on_type_and_name sampleEnv
      ⟨"application/pdf", "a.bin", [37, 80, 68, 70, 72, 105]⟩
      ⟨"application/pdf", "a.bin", [1, 2]⟩ 0 9).2.2 sampleEnv_repeatable).1⟩

/-- Claim C4 fails as stated: `extractText` keeps nothing of the first run, so
when the file can no longer be read at the second run, the first run of a
`text/plain` handle resolves with the text and the second run on the same
handle is rejected with the event of `reader.onerror`. Both runs select the
passthrough. -/
theorem second_run_can_settle_differently :
    (extractText changingEnv (some ⟨"text/plain", "notes.txt", [104, 105]⟩) 0)
        = { outcome := .resolved (some "hi"), calls := [Call.readAsText], world := 1 }
      ∧ (extractText changingEnv (some ⟨"text/plain", "notes.txt", [104, 105]⟩)
            (extractText changingEnv (some ⟨"text/plain", "notes.txt", [104, 105]⟩) 0).world)
        = { outcome := .rejected (Thrown.event "NotReadableError"),
            calls := [Call.readAsText],
            world := 2 }
      ∧ (extractText changingEnv (some ⟨"text/plain", "notes.txt", [104, 105]⟩)
            (extractText changingEnv
              (some ⟨"text/plain", "notes.txt", [104, 105]⟩) 0).world).outcome
        ≠ (extractText changingEnv (some ⟨"text/plain", "notes.txt", [104, 105]⟩) 0).outcome := by
  decide

/-- The six passthrough formats all run `readAsText`. -/
theorem dispatch_passthrough {σ : Type} (env : Env σ) (format : Format) (file : File) (w : σ)
    (h : format ∈ passthroughFormats) :
    dispatch env format file w = (readAsText env file w).map some := by
  cases format <;> first | rfl | (exfalso; revert h; decide)

/-- Claim C5: for a handle classified as PlainText, RichText, Csv, Json, Markdown
or Xml the run of `extractText` is the run of `readAsText` on that handle, so it
resolves with exactly the text the loader yields; in particular a handle
declared `text/plain` whose load yields the empty string resolves with the
empty string. -/
theorem passthrough_is_identity {σ : Type} (env : Env σ) (file : File) (w : σ) :
    (formatOf file.type (env.toLowerCase file.name) ∈ passthroughFormats →
        extractText env (some file) w = (readAsText env file w).map some
          ∧ (extractText env (some file) w).calls = [Call.readAsText]
          ∧ ∀ text, (env.fileReaderText file w).1 = .resolved text →
              (extractText env (some file) w).outcome = .resolved (some text))
      ∧ (file.type = "text/plain" → (env.fileReaderText file w).1 = .resolved "" →
          (extractText env (some file) w).outcome = .resolved (some "")) := by
  constructor
  · intro h
    rw [extractText_eq_dispatch, dispatch_passthrough env _ file w h]
    refine ⟨rfl, rfl, fun text ht => ?_⟩
    simp [Run.map, readAsText, ht]
  · intro htype hread
    have h : formatOf file.type (env.toLowerCase file.name) ∈ passthroughFormats := by
      simp [formatOf, htype, passthroughFormats]
    rw [extractText_eq_dispatch, dispatch_passthrough env _ file w h]
    simp [Run.map, readAsText, hread]

/-- Claim C5 at a `.CSV` handle and at a zero-length `text/plain` handle. -/
theorem passthrough_is_identity_witness :
    (extractText sampleEnv (some ⟨"", "Data.CSV", [97, 44, 98]⟩) 0
        = (readAsText sampleEnv ⟨"", "Data.CSV", [97, 44, 98]⟩ 0).map some)
      ∧ (extractText sampleEnv (some ⟨"text/plain", "empty.txt", []⟩) 0).outcome
          = .resolved (some "") :=
  ⟨((passthrough_is_identity sampleEnv ⟨"", "Data.CSV", [97, 44, 98]⟩ 0).1 (by decide)).1,
   (passthrough_is_identity sampleEnv ⟨"text/plain", "empty.txt", []⟩ 0).2 rfl rfl⟩

/-- Claim C6: for a handle classified as Pdf (as WordDocument) the run of
`extractText` is the run of `extractPdfText` (of `extractWordText`) and nothing
else, so a failure `e` of the decoder is the failure of `extractText`,
unchanged; and for every supported handle the run of `extractText` is the run
of exactly one of `readAsText`, `extractPdfText`, `extractWordText`,
`extractHtmlText`. -/
theorem container_decoder_failure_propagates {σ : Type} (env : Env σ) (file : File) (w : σ) :
    (formatOf file.type (env.toLowerCase file.name) = .pdf →
        extractText env (some file) w = (extractPdfText env file w).map some
          ∧ (extractText env (some file) w).calls = [Call.extractPdfText]
          ∧ ∀ e, (env.extractPdfText file w).1 = .rejected e →
              (extractText env (some file) w).outcome = .rejected e)
      ∧ (formatOf file.type (env.toLowerCase file.name) = .wordDocument →
          extractText env (some file) w = (extractWordText env file w).map some
            ∧ ∀ e, (extractWordText env file w).outcome = .rejected e →
                (extractText env (some file) w).outcome = .rejected e)
      ∧ (formatOf file.type (env.toLowerCase file.name) ≠ .unsupported →
          ∃ run ∈ [readAsText env file w, extractPdfText env file w,
              extractWordText env file w, extractHtmlText env file w],
            extractText env (some file) w = run.map some) := by
  refine ⟨fun h => ?_, fun h => ?_, fun h => ?_⟩
  · rw [extractText_eq_dispatch, h]
    refine ⟨rfl, rfl, fun e he => ?_⟩
    simp [dispatch, Format.strategy, Run.map, extractPdfText, he]
  · rw [extractText_eq_dispatch, h]
    refine ⟨rfl, fun e he => ?_⟩
    simp [dispatch, Format.strategy, Run.map, he]
  · rw [extractText_eq_dispatch]
    revert h
    cases formatOf file.type (env.toLowerCase file.name) <;> intro h <;>
      simp [dispatch, Format.strategy] at h ⊢

/-- Claim C6 at a malformed Pdf payload and at a corrupted Word package. -/
theorem container_decoder_failure_propagates_witness :
    (extractText sampleEnv (some ⟨"application/pdf", "broken.pdf", [0, 1]⟩) 0).outcome
        = .rejected (Thrown.error "Invalid PDF structure")
      ∧ (extractText sampleEnv (some ⟨"", "Report.DOCX", [0, 1]⟩) 0).outcome
        = .rejected (Thrown.error "corrupted package") :=
  ⟨((container_decoder_failure_propagates sampleEnv
      ⟨"application/pdf", "broken.pdf", [0, 1]⟩ 0).1 (by decide)).2.2 _ (by decide),
   ((container_decoder_failure_propagates sampleEnv
      ⟨"", "Report.DOCX", [0, 1]⟩ 0).2.1 (by decide)).2 _ (by decide)⟩

/-- Claim C7: two handles with the same declared media type whose names are equal
after lower-casing are given the same strategy; and when the declared type is
in no row of the table, the handle is supported exactly when its lower-cased
name ends with one of the tested suffixes. -/
theorem suffix_matching_is_case_insensitive {σ : Type} (env : Env σ) (f g : File) (w v : σ) :
    (f.type = g.type → env.toLowerCase f.name = env.toLowerCase g.name →
        selected (extractText env (some f) w) = selected (extractText env (some g) v))
      ∧ (f.type ∉ tableMediaTypes →
          (selected (extractText env (some f) w) ≠ some Strategy.unsupportedFailure
            ↔ ∃ s ∈ testedSuffixes, endsWith (env.toLowerCase f.name) s = true)) := by
  refine ⟨fun htype hname => ?_, fun htype => ?_⟩
  · rw [selected_extractText, selected_extractText, htype, hname]
  · have hiff := formatOf_eq_unsupported_iff f.type (env.toLowerCase f.name)
    have hstrategy : ∀ format : Format,
        format.strategy = Strategy.unsupportedFailure ↔ format = Format.unsupported := by
      intro format
      cases format <;> decide
    rw [selected_extractText, Ne, Option.some.injEq, hstrategy, hiff]
    simp only [htype, not_false_eq_true, true_and, not_forall, Bool.not_eq_false]
    constructor
    · rintro ⟨s, hs, h⟩
      exact ⟨s, hs, h⟩
    · rintro ⟨s, hs, h⟩
      exact ⟨s, hs, h⟩

/-- Claim C7 at the names `REPORT.PDF` and `report.pdf`. -/
theorem suffix_matching_is_case_insensitive_witness :
    selected (extractText sampleEnv (some ⟨"", "REPORT.PDF", [37, 80, 68, 70]⟩) 0)
        = selected (extractText sampleEnv (some ⟨"", "report.pdf", [37, 80, 68, 70]⟩) 4)
      ∧ selected (extractText sampleEnv (some ⟨"", "REPORT.PDF", [37, 80, 68, 70]⟩) 0)
        ≠ some Strategy.unsupportedFailure :=
  ⟨(suffix_matching_is_case_insensitive sampleEnv ⟨"", "REPORT.PDF", [37, 80, 68, 70]⟩
      ⟨"", "report.pdf", [37, 80, 68, 70]⟩ 0 4).1 rfl (by decide),
   ((suffix_matching_is_case_insensitive sampleEnv ⟨"", "REPORT.PDF", [37, 80, 68, 70]⟩
      ⟨"", "report.pdf", [37, 80, 68, 70]⟩ 0 4).2 (by decide)).2 ⟨".pdf", by decide, by decide⟩⟩

/-- Claim C10: the strategy `extractText` selects is that of `firstMatch`:
`text/plain` wins over everything, otherwise the first format in the order Pdf,
WordDocument, RichText, Html, Csv, Json, Markdown, Xml whose media type equals
the declared type or whose suffix ends the lower-cased name. So a name ending
`.pdf` declared `text/plain` is passed through, and a name ending `.pdf`
declared `text/html` or `application/json` is sent to the Pdf decoder. -/
theorem conflict_resolved_by_format_order {σ : Type} (env : Env σ) (file : File) (w : σ) :
    selected (extractText env (some file) w)
        = some (firstMatch file.type (env.toLowerCase file.name)).strategy
      ∧ (file.type = "text/plain" →
          selected (extractText env (some file) w) = some Strategy.passthrough)
      ∧ (endsWith (env.toLowerCase file.name) ".pdf" = true →
          file.type = "text/html" ∨ file.type = "application/json" →
          selected (extractText env (some file) w) = some Strategy.pdfDecoder) := by
  refine ⟨?_, fun htype => ?_, fun hname htype => ?_⟩
  · rw [selected_extractText, firstMatch_eq_formatOf]
  · rw [selected_extractText]
    simp [formatOf, htype, Format.strategy]
  · rw [selected_extractText]
    rcases htype with htype | htype <;> simp [formatOf, htype, hname, Format.strategy]

/-- Claim C10 at the name `paper.pdf`, declared `text/plain` and `application/json`. -/
theorem conflict_resolved_by_format_order_witness :
    selected (extractText sampleEnv (some ⟨"text/plain", "paper.pdf", [37, 80, 68, 70]⟩) 0)
        = some Strategy.passthrough
      ∧ selected (extractText sampleEnv (some ⟨"application/json", "paper.pdf", [123, 125]⟩) 0)
        = some Strategy.pdfDecoder :=
  ⟨(conflict_resolved_by_format_order sampleEnv
      ⟨"text/plain", "paper.pdf", [37, 80, 68, 70]⟩ 0).2.1 rfl,
   (conflict_resolved_by_format_order sampleEnv
      ⟨"application/json", "paper.pdf", [123, 125]⟩ 0).2.2 (by decide) (Or.inr rfl)⟩

/-- The stripper returns `textContent` when it is non-empty, else `innerText` (which is the
empty string when nothing is recovered). -/
theorem stripHtml_eq {σ : Type} (env : Env σ) (html : String) :
    stripHtml env html
      = if env.textContent html = "" then env.innerText html else env.textContent html := by
  unfold stripHtml jsOr
  split_ifs <;> simp_all

/-- The stripper fails only when the load fails, and with the failure of the load. -/
theorem extractHtmlText_outcome {σ : Type} (env : Env σ) (file : File) (w : σ) :
    (∀ html, (env.fileReaderText file w).1 = .resolved html →
        (extractHtmlText env file w).outcome = .resolved (stripHtml env html))
      ∧ (∀ e, (env.fileReaderText file w).1 = .rejected e →
        (extractHtmlText env file w).outcome = .rejected e) := by
  constructor <;> intro x hx <;> simp [extractHtmlText, readAsText, hx]

/-- Claim C8: for an absent handle (`null` or `undefined`) `extractText` resolves
with `null`: it does not fail, it invokes no loader or decoder, and it leaves
the world as it was. -/
theorem extractText_absent {σ : Type} (env : Env σ) (w : σ) :
    extractText env none w = { outcome := .resolved none, calls := [], world := w } := by
  rfl

end NeuroTask
